import Mathlib

/-! Verification of the price-resolution / TVL / change-detection core of the
pcs-lp-monitor repository, a shallow embedding of `src/main.py`.

Modelling conventions:
* Python `float` values (prices, amounts, timestamps, percentages) are modelled
  as `ℚ` with exact arithmetic.  Python float division by zero raises
  `ZeroDivisionError`; this is modelled by `pydiv`, which returns `Except`.
* Python dicts keyed by strings are modelled as functions `String → Option _`;
  `d[k] = v` is the pointwise update `updQ`/`updS`/`updC`, `d.get(k)` is
  function application.  Two dict iterations produce the same final map when
  every write to a key carries the same value, which is the case everywhere a
  dict is built below, so the function representation is faithful.
* Network calls (`requests.get`) appear as oracle functions in `Env`:
  `dexApi` maps a DexScreener pair address to the `priceUsd` the endpoint
  would yield (`none` covers every failure branch of the source: HTTP error,
  timeout, missing pair, missing `priceUsd` — all of which the source catches
  and treats as "no price for this symbol"), and `cgApi` maps a CoinGecko id
  to the `usd` field of the batched `simple/price` response (`none` = id
  absent from the response or the whole request failed).
* `datetime.now()` is the `now` field of `Env` (one polling step is fast
  enough that the source treats time as constant within a call), and the TTL
  `timedelta(minutes=cache_ttl_minutes)` is the `ttl` field.
* Python `str.upper()` is `pyUpper` (per-character uppercasing; token symbols
  are ASCII strings).
* The `timestamp` ISO string of `PoolData` and the exact decimal rendering of
  numbers in log/webhook strings are display-only; number formatting is
  abstracted by `fmtQ` (formatting a finite rational never fails, so control
  flow is unaffected).
* File persistence (`save_data`), console printing and the web3 ledger reads
  are outside the verified core, per the specification's scope; pool reserves
  enter `monitor_pool` as an `Option` tuple exactly as `get_pool_reserves`
  returns them (`none` = any caught RPC failure).
-/

/-- Python `str.upper()` restricted to the per-character uppercasing that
`Char.toUpper` performs (token symbols are ASCII). -/
def pyUpper (s : String) : String := ⟨s.data.map Char.toUpper⟩

/-- A Python dict `symbol -> float` (`resolveMany` results, fetcher results). -/
abbrev PriceMap := String → Option ℚ

/-- A Python dict `string -> string` (symbol→id and symbol→pair-address maps). -/
abbrev StrMap := String → Option String

/-- Dict write `d[k] = v` for a `PriceMap`. -/
def updQ (m : PriceMap) (k : String) (v : ℚ) : PriceMap :=
  fun q => if q = k then some v else m q

/-- Dict write `d[k] = v` for a `StrMap`. -/
def updS (m : StrMap) (k v : String) : StrMap :=
  fun q => if q = k then some v else m q

/-- The empty `PriceMap`. -/
def emptyQ : PriceMap := fun _ => none

/-- The empty `StrMap`. -/
def emptyS : StrMap := fun _ => none

/-- One entry of `self.price_cache`: a dict with keys `price`, `timestamp`,
`source` (src/main.py line 51, written only by `set_cached_price`). -/
structure CacheEntry where
  price : ℚ
  timestamp : ℚ
  source : String
deriving DecidableEq

/-- The price cache `self.price_cache : Dict[str, Dict]`. -/
abbrev PriceCache := String → Option CacheEntry

/-- Dict write for the price cache. -/
def updC (m : PriceCache) (k : String) (v : CacheEntry) : PriceCache :=
  fun q => if q = k then some v else m q

/-- The empty price cache. -/
def emptyC : PriceCache := fun _ => none

/-- One entry of the `pools` list of `config.json`, with the fields the core
reads (`contract_address`, `name`, `target_token`, `enabled`, `pool_type`).
`target_token := none` models a pool dict without that key. -/
structure PoolCfg where
  contract_address : String
  name : String
  target_token : Option String
  enabled : Bool
  pool_type : String
deriving DecidableEq

/-- The ambient state of a monitor call: configuration plus the two network
oracles and the current wall-clock time (see the module comment). `tokens`
models the `tokens` section of the configuration as a list of
`(symbol, optional coingecko_id)` pairs in dict order. -/
structure Env where
  pools : List PoolCfg
  tokens : List (String × Option String)
  dexApi : String → Option ℚ
  cgApi : String → Option ℚ
  now : ℚ
  ttl : ℚ

/-- `is_cache_valid` (src/main.py lines 360-372): an entry is valid iff it
exists and `now - cache_time < ttl` holds strictly. -/
def is_cache_valid (env : Env) (cache_entry : Option CacheEntry) : Bool :=
  match cache_entry with
  | none => false
  | some e => decide (env.now - e.timestamp < env.ttl)

/-- The body of `get_cached_price` after key normalisation: look up an
already-normalised key and return its price if the entry is valid. -/
def cache_lookup (env : Env) (cache : PriceCache) (k : String) : Option ℚ :=
  let cache_entry := cache k
  if is_cache_valid env cache_entry then cache_entry.map (fun e => e.price) else none

/-- `get_cached_price` (src/main.py lines 374-381): look up
`price_cache.get(symbol.upper())` and return the price when valid. -/
def get_cached_price (env : Env) (cache : PriceCache) (symbol : String) : Option ℚ :=
  cache_lookup env cache (pyUpper symbol)

/-- `set_cached_price` (src/main.py lines 383-390): unconditionally overwrite
the entry at `symbol.upper()` with a fresh timestamp. -/
def set_cached_price (env : Env) (cache : PriceCache) (symbol : String)
    (price : ℚ) (source : String) : PriceCache :=
  updC cache (pyUpper symbol) ⟨price, env.now, source⟩

/-- The hard-coded part of `get_coingecko_mapping` (src/main.py lines 394-401),
built in dict-literal order.  Note `WBNB` and `BNB` both map to
`binancecoin`. -/
def base_coingecko_mapping : StrMap :=
  updS (updS (updS (updS (updS (updS emptyS
    "WBNB" "binancecoin") "BNB" "binancecoin") "USDT" "tether")
    "USDC" "usd-coin") "ETH" "ethereum") "BTCB" "bitcoin"

/-- `get_coingecko_mapping` (src/main.py lines 392-409): the hard-coded map
extended by every configured token that declares a `coingecko_id`. -/
def get_coingecko_mapping (env : Env) : StrMap :=
  env.tokens.foldl (fun m t =>
    match t.2 with
    | some cid => updS m (pyUpper t.1) cid
    | none => m) base_coingecko_mapping

/-- `get_dexscreener_pair_addresses` (src/main.py lines 412-425): for every
enabled pool with truthy `target_token` and `contract_address`, map the
upper-cased target token to the pool address. -/
def get_dexscreener_pair_addresses (env : Env) : StrMap :=
  env.pools.foldl (fun m pool =>
    if pool.enabled then
      match pool.target_token with
      | some tgt =>
        if tgt ≠ "" ∧ pool.contract_address ≠ "" then
          updS m (pyUpper tgt) pool.contract_address
        else m
      | none => m
    else m) emptyS

/-- `fetch_prices_from_dexscreener` (src/main.py lines 427-466): per symbol,
look up the pair address for the upper-cased symbol and query the endpoint;
every failure branch just skips the symbol. -/
def fetch_prices_from_dexscreener (env : Env) (symbols : List String) : PriceMap :=
  symbols.foldl (fun prices symbol =>
    match get_dexscreener_pair_addresses env (pyUpper symbol) with
    | none => prices
    | some pair_address =>
      match env.dexApi pair_address with
      | some price => updQ prices (pyUpper symbol) price
      | none => prices) emptyQ

/-- `fetch_prices_from_coingecko` (src/main.py lines 468-511) is embedded in
three pieces.  The loop over `symbols` (lines 477-482) appends, per symbol
with a CoinGecko id, the id to `coingecko_ids` and writes
`symbol_to_id[id] = symbol.upper()`; `cg_pairs` lists those
`(id, upper symbol)` actions in order. -/
def cg_pairs (env : Env) (symbols : List String) : List (String × String) :=
  symbols.filterMap (fun s =>
    ((get_coingecko_mapping env) (pyUpper s)).map (fun cid => (cid, pyUpper s)))

/-- The dict `symbol_to_id` of `fetch_prices_from_coingecko` (later writes
win, which is where two symbols sharing an id collide), read back as
`id → symbol`. -/
def cg_symbol_to_id (env : Env) (symbols : List String) : StrMap :=
  (cg_pairs env symbols).foldl (fun m p => updS m p.1 p.2) emptyS

/-- The request/response step of `fetch_prices_from_coingecko` (src/main.py
lines 484-511): one batched request for all mapped ids; for each returned id
its price is kept for `symbol_to_id[id]` when both `symbol` and `price` are
truthy.  The response dict is iterated here as the request id list: each id's
write depends only on the id, so duplicate ids rewrite the same entry and the
resulting map is identical. -/
def fetch_prices_from_coingecko (env : Env) (symbols : List String) : PriceMap :=
  let coingecko_ids := (cg_pairs env symbols).map Prod.fst
  if coingecko_ids.isEmpty then emptyQ else
    coingecko_ids.foldl (fun prices cid =>
      match cg_symbol_to_id env symbols cid, env.cgApi cid with
      | some symbol, some price =>
        if symbol ≠ "" ∧ price ≠ 0 then updQ prices symbol price else prices
      | some _, none => prices
      | none, _ => prices) emptyQ

/-- `get_token_price` (src/main.py lines 513-538): cache, then DexScreener,
then CoinGecko; each network hit is written back into the cache; `none` when
all three miss.  Returns the price and the updated cache. -/
def get_token_price (env : Env) (cache : PriceCache) (symbol : String) :
    Option ℚ × PriceCache :=
  let symbol_upper := pyUpper symbol
  match get_cached_price env cache symbol_upper with
  | some cached_price => (some cached_price, cache)
  | none =>
    let dexscreener_prices := fetch_prices_from_dexscreener env [symbol_upper]
    match dexscreener_prices symbol_upper with
    | some price => (some price, set_cached_price env cache symbol_upper price "dexscreener")
    | none =>
      let coingecko_prices := fetch_prices_from_coingecko env [symbol_upper]
      match coingecko_prices symbol_upper with
      | some price => (some price, set_cached_price env cache symbol_upper price "coingecko")
      | none => (none, cache)

/-- `get_multiple_token_prices` (src/main.py lines 540-576): split the batch
into cached and uncached symbols, fetch the uncached ones from DexScreener,
the rest from CoinGecko, write resolved prices back to the cache, and omit
unresolved symbols from the result.  Returns the result map and the updated
cache. -/
def get_multiple_token_prices (env : Env) (cache : PriceCache) (symbols : List String) :
    PriceMap × PriceCache :=
  let checked := symbols.foldl (fun (acc : PriceMap × List String) symbol =>
    match get_cached_price env cache symbol with
    | some cached_price => (updQ acc.1 (pyUpper symbol) cached_price, acc.2)
    | none => (acc.1, acc.2 ++ [symbol])) (emptyQ, [])
  let prices := checked.1
  let uncached_symbols := checked.2
  if uncached_symbols.isEmpty then (prices, cache) else
    let dexscreener_prices := fetch_prices_from_dexscreener env uncached_symbols
    let remaining_symbols := uncached_symbols.filter
      (fun s => (dexscreener_prices (pyUpper s)).isNone)
    let coingecko_prices := if remaining_symbols.isEmpty then emptyQ
      else fetch_prices_from_coingecko env remaining_symbols
    uncached_symbols.foldl (fun (acc : PriceMap × PriceCache) symbol =>
      match dexscreener_prices (pyUpper symbol) with
      | some price => (updQ acc.1 (pyUpper symbol) price,
                       set_cached_price env acc.2 (pyUpper symbol) price "dexscreener")
      | none =>
        match coingecko_prices (pyUpper symbol) with
        | some price => (updQ acc.1 (pyUpper symbol) price,
                         set_cached_price env acc.2 (pyUpper symbol) price "coingecko")
        | none => acc) (prices, cache)

/-- The 7-tuple returned by `calculate_tvl` (src/main.py line 606), with the
source's local-variable names as field names. -/
structure TvlResult where
  token0_price : ℚ
  token1_price : ℚ
  total_tvl : ℚ
  token0_tvl : ℚ
  token1_tvl : ℚ
  token0_percentage : ℚ
  token1_percentage : ℚ
deriving DecidableEq

/-- `calculate_tvl` (src/main.py lines 578-606): one batched price request for
both symbols; `none` when either price is missing from the result map;
otherwise per-token values, total, and shares (zero shares when the total is
not positive). -/
def calculate_tvl (env : Env) (cache : PriceCache) (token0_symbol token1_symbol : String)
    (token0_amount token1_amount : ℚ) : Option TvlResult × PriceCache :=
  let res := get_multiple_token_prices env cache [token0_symbol, token1_symbol]
  let prices := res.1
  match prices (pyUpper token0_symbol), prices (pyUpper token1_symbol) with
  | some token0_price, some token1_price =>
    let token0_tvl := token0_amount * token0_price
    let token1_tvl := token1_amount * token1_price
    let total_tvl := token0_tvl + token1_tvl
    let token0_percentage := if total_tvl > 0 then token0_tvl / total_tvl * 100 else 0
    let token1_percentage := if total_tvl > 0 then token1_tvl / total_tvl * 100 else 0
    (some ⟨token0_price, token1_price, total_tvl, token0_tvl, token1_tvl,
           token0_percentage, token1_percentage⟩, res.2)
  | _, _ => (none, res.2)

/-- The `PoolData` dataclass (src/main.py lines 22-37) together with the four
attributes attached dynamically in `monitor_pool` (lines 662-665).  The
display-only ISO `timestamp` string is not modelled. -/
structure PoolData where
  pool_address : String
  pool_name : String
  token0_symbol : String
  token1_symbol : String
  token0_amount : ℚ
  token1_amount : ℚ
  token0_price_usd : ℚ
  token1_price_usd : ℚ
  tvl_usd : ℚ
  target_token : String
  target_token_amount : ℚ
  target_token_price : ℚ
  token0_tvl : ℚ
  token1_tvl : ℚ
  token0_percentage : ℚ
  token1_percentage : ℚ
deriving DecidableEq

/-- `monitor_pool` (src/main.py lines 608-667) from the point where the pool
reserves are known: `reserves_data` is what `get_pool_reserves` produced
(`none` = any caught RPC failure; decimals omitted, they are consumed before
this point).  Target-token selection (lines 636-642): the configured
`target_token` (defaulting to `token0_symbol`) takes token0's amount and price
when it equals `token0_symbol` and token1's otherwise. -/
def monitor_pool (env : Env) (cache : PriceCache)
    (reserves_data : Option (String × String × ℚ × ℚ)) (pool_config : PoolCfg) :
    Option PoolData × PriceCache :=
  match reserves_data with
  | none => (none, cache)
  | some (token0_symbol, token1_symbol, token0_amount, token1_amount) =>
    match calculate_tvl env cache token0_symbol token1_symbol token0_amount token1_amount with
    | (none, cache2) => (none, cache2)
    | (some r, cache2) =>
      let target_token := pool_config.target_token.getD token0_symbol
      let ta_tp : ℚ × ℚ :=
        if target_token = token0_symbol then (token0_amount, r.token0_price)
        else (token1_amount, r.token1_price)
      (some { pool_address := pool_config.contract_address
              pool_name := pool_config.name
              token0_symbol := token0_symbol
              token1_symbol := token1_symbol
              token0_amount := token0_amount
              token1_amount := token1_amount
              token0_price_usd := r.token0_price
              token1_price_usd := r.token1_price
              tvl_usd := r.total_tvl
              target_token := target_token
              target_token_amount := ta_tp.1
              target_token_price := ta_tp.2
              token0_tvl := r.token0_tvl
              token1_tvl := r.token1_tvl
              token0_percentage := r.token0_percentage
              token1_percentage := r.token1_percentage }, cache2)

/-- Python float division: raises `ZeroDivisionError` on a zero denominator. -/
def pydiv (a b : ℚ) : Except String ℚ :=
  if b = 0 then Except.error "ZeroDivisionError" else Except.ok (a / b)

/-- `get_alert_emoji` (src/main.py lines 669-679). -/
def get_alert_emoji (percent : ℚ) (threshold : ℚ) : String :=
  let abs_percent := |percent|
  if abs_percent ≥ threshold * 3 then (if percent < 0 then "🚨" else "🎉")
  else if abs_percent ≥ threshold * 2 then (if percent < 0 then "⚠️" else "📈")
  else if abs_percent ≥ threshold then (if percent < 0 then "🔻" else "🔺")
  else "ℹ️"

/-- Rendering of a rational in a message.  Abstracts the Python format
specifiers, which never fail on a finite float and play no role in control
flow. -/
def fmtQ (q : ℚ) : String := toString q

/-- The message construction of `send_alert_webhook` (src/main.py lines
684-717), before the surrounding `try`: strings are concatenated in source
order and the four per-leg percentage divisions raise `ZeroDivisionError`
whenever the corresponding baseline value is zero.  `nowStr` stands for
`datetime.now().strftime(..)`. -/
def build_alert_message (nowStr : String) (current_data prev_data : PoolData)
    (tvl_change_percent target_change_percent threshold : ℚ) : Except String String := do
  let alert_emoji := get_alert_emoji (max |tvl_change_percent| |target_change_percent|) threshold
  let message := alert_emoji ++ " " ++ current_data.pool_name ++ " LP池报警\n"
  let message := message ++ "时间: " ++ nowStr ++ "\n\n"
  let tvl_color := if tvl_change_percent > 0 then "🟢" else "🔴"
  let message := message ++ tvl_color ++ " TVL: " ++ fmtQ tvl_change_percent ++ "% ($"
    ++ fmtQ prev_data.tvl_usd ++ " → $" ++ fmtQ current_data.tvl_usd ++ ")\n"
  let token_color := if target_change_percent > 0 then "🟢" else "🔴"
  let message := message ++ token_color ++ " " ++ current_data.target_token ++ ": "
    ++ fmtQ target_change_percent ++ "% (" ++ fmtQ prev_data.target_token_amount
    ++ " → " ++ fmtQ current_data.target_token_amount ++ ")\n\n"
  let token0_amount_change :=
    (← pydiv (current_data.token0_amount - prev_data.token0_amount) prev_data.token0_amount) * 100
  let token0_tvl_change :=
    (← pydiv (current_data.token0_tvl - prev_data.token0_tvl) prev_data.token0_tvl) * 100
  let token0_emoji := if token0_amount_change > 0 then "🟢" else "🔴"
  let message := message ++ token0_emoji ++ " " ++ current_data.token0_symbol ++ ":\n"
  let message := message ++ "数量: " ++ fmtQ prev_data.token0_amount ++ " → "
    ++ fmtQ current_data.token0_amount ++ " (" ++ fmtQ token0_amount_change ++ "%)\n"
  let message := message ++ "TVL: $" ++ fmtQ prev_data.token0_tvl ++ " → $"
    ++ fmtQ current_data.token0_tvl ++ " (" ++ fmtQ token0_tvl_change ++ "%)\n\n"
  let token1_amount_change :=
    (← pydiv (current_data.token1_amount - prev_data.token1_amount) prev_data.token1_amount) * 100
  let token1_tvl_change :=
    (← pydiv (current_data.token1_tvl - prev_data.token1_tvl) prev_data.token1_tvl) * 100
  let token1_emoji := if token1_amount_change > 0 then "🟢" else "🔴"
  let message := message ++ token1_emoji ++ " " ++ current_data.token1_symbol ++ ":\n"
  let message := message ++ "数量: " ++ fmtQ prev_data.token1_amount ++ " → "
    ++ fmtQ current_data.token1_amount ++ " (" ++ fmtQ token1_amount_change ++ "%)\n"
  let message := message ++ "TVL: $" ++ fmtQ prev_data.token1_tvl ++ " → $"
    ++ fmtQ current_data.token1_tvl ++ " (" ++ fmtQ token1_tvl_change ++ "%)"
  pure message

/-- `send_alert_webhook` (src/main.py lines 681-739): the whole construction
and dispatch sits in a `try/except` that only logs, so the caller observes
either a message handed to the notifier (`some`) or nothing (`none`); no
exception propagates.  Delivery itself is external fire-and-forget. -/
def send_alert_webhook (nowStr : String) (current_data prev_data : PoolData)
    (tvl_change_percent target_change_percent threshold : ℚ) : Option String :=
  (build_alert_message nowStr current_data prev_data
    tvl_change_percent target_change_percent threshold).toOption

/-- `self.previous_data : Dict[str, PoolData]`. -/
abbrev Store := String → Option PoolData

/-- Dict write for the snapshot store. -/
def updStore (st : Store) (k : String) (d : PoolData) : Store :=
  fun q => if q = k then some d else st q

/-- The initial, empty snapshot store. -/
def emptyStore : Store := fun _ => none

/-- `check_for_changes` (src/main.py lines 741-774): with a baseline present,
compute both percentage deltas (each a Python float division that raises on a
zero baseline), fire on `abs >= threshold` for either, then store the new
snapshot.  Returns the fired deltas (`none` = no alert) and the new store;
`Except.error` models an escaping `ZeroDivisionError`, in which case the
store is left untouched (the assignment on line 774 is never reached). -/
def check_for_changes (threshold : ℚ) (previous_data : Store) (current_data : PoolData) :
    Except String (Option (ℚ × ℚ) × Store) :=
  match previous_data current_data.pool_address with
  | none => Except.ok (none, updStore previous_data current_data.pool_address current_data)
  | some prev_data =>
    match pydiv (current_data.tvl_usd - prev_data.tvl_usd) prev_data.tvl_usd with
    | Except.error e => Except.error e
    | Except.ok t =>
      match pydiv (current_data.target_token_amount - prev_data.target_token_amount)
          prev_data.target_token_amount with
      | Except.error e => Except.error e
      | Except.ok g =>
        let tvl_change_percent := t * 100
        let target_change_percent := g * 100
        let alert :=
          if |tvl_change_percent| ≥ threshold ∨ |target_change_percent| ≥ threshold then
            some (tvl_change_percent, target_change_percent)
          else none
        Except.ok (alert, updStore previous_data current_data.pool_address current_data)

/-- The alert decision of `check_for_changes` written with total division, as
it behaves when both baselines are nonzero. -/
def alert_decision (threshold : ℚ) (prev_data current_data : PoolData) : Option (ℚ × ℚ) :=
  let tvl_change_percent :=
    (current_data.tvl_usd - prev_data.tvl_usd) / prev_data.tvl_usd * 100
  let target_change_percent :=
    (current_data.target_token_amount - prev_data.target_token_amount)
      / prev_data.target_token_amount * 100
  if |tvl_change_percent| ≥ threshold ∨ |target_change_percent| ≥ threshold then
    some (tvl_change_percent, target_change_percent)
  else none

/-- Whether a `check_for_changes` outcome fired an alert. -/
def alert_fired (r : Except String (Option (ℚ × ℚ) × Store)) : Bool :=
  match r with
  | Except.ok (some _, _) => true
  | _ => false

/-- The per-cycle pool loop of `run` (src/main.py lines 927-931): each pool's
`monitor_pool` outcome is either `none` (skipped, never fatal) or a snapshot
passed to `check_for_changes`.  An exception escaping `check_for_changes`
aborts the cycle (there is no handler inside the `while` loop). -/
def process_cycle (threshold : ℚ) (previous_data : Store)
    (results : List (Option PoolData)) : Except String Store :=
  match results with
  | [] => Except.ok previous_data
  | none :: rest => process_cycle threshold previous_data rest
  | some d :: rest =>
    match check_for_changes threshold previous_data d with
    | Except.error e => Except.error e
    | Except.ok (_, st) => process_cycle threshold st rest

/-- The monitoring loop of `run` (src/main.py lines 902-944), driven by a
finite schedule: `cycles` lists, per polling cycle, the `monitor_pool`
outcomes of the enabled pools.  The `try` wrapping the `while` loop means any
exception raised inside a cycle terminates the loop (it is logged and `run`
returns); the second component counts the cycles that completed. -/
def run (threshold : ℚ) (previous_data : Store)
    (cycles : List (List (Option PoolData))) : Store × Nat :=
  match cycles with
  | [] => (previous_data, 0)
  | cyc :: rest =>
    match process_cycle threshold previous_data cyc with
    | Except.error _ => (previous_data, 0)
    | Except.ok st =>
      let r := run threshold st rest
      (r.1, r.2 + 1)

/-- The DexScreener quote for one already-normalised symbol, as the spec
describes source 1 of `resolveMany`: the per-pool direct-quote source keyed by
the symbol→pair table. -/
def dex_quote (env : Env) (k : String) : Option ℚ :=
  match get_dexscreener_pair_addresses env k with
  | some pair_address => env.dexApi pair_address
  | none => none

/-- The CoinGecko quote for one already-normalised symbol, as the spec
describes source 2 of `resolveMany`: the symbol→external-id mapping queried
for that symbol alone (truthiness guards included). -/
def cg_quote (env : Env) (k : String) : Option ℚ :=
  match get_coingecko_mapping env k with
  | some cid =>
    match env.cgApi cid with
    | some p => if k ≠ "" ∧ p ≠ 0 then some p else none
    | none => none
  | none => none

/-- Per-symbol resolution in the spec's fixed priority order (§4.2): cache,
then the DexScreener direct-quote source, then the CoinGecko source; `none`
when all three miss.  This is the value `resolveMany` is specified to give
each individual symbol. -/
def resolve_one_spec (env : Env) (cache : PriceCache) (k : String) : Option ℚ :=
  match cache_lookup env cache k with
  | some p => some p
  | none =>
    match dex_quote env k with
    | some p => some p
    | none => cg_quote env k

/-- A snapshot whose baselines are usable by `check_for_changes` without a
`ZeroDivisionError`: nonzero TVL and nonzero target-token amount. -/
def goodB (d : PoolData) : Bool := d.tvl_usd != 0 && d.target_token_amount != 0

/-- A no-network environment (both oracles empty) with `now = 0` and a
5-minute TTL, used to exercise the cache paths on concrete data. -/
def env_cached : Env := ⟨[], [], fun _ => none, fun _ => none, 0, 5⟩

/-- A concrete cache holding valid prices for `MCH` (0.04) and `WBNB` (320),
the spec's TVL-conservation example. -/
def cache_mw : PriceCache :=
  updC (updC emptyC "MCH" ⟨1/25, 0, "dexscreener"⟩) "WBNB" ⟨320, 0, "coingecko"⟩

/-- The `TvlResult` of the spec's conservation example
(`p0=0.04, amount0=1000, p1=320, amount1=5`). -/
def r_mw : TvlResult := ⟨1/25, 320, 1640, 40, 1600, 100/41, 4000/41⟩

/-- Environment where `MCH` is resolvable through DexScreener (its pool is
configured as a direct-quote pair) but `WBNB` resolves through neither
source. -/
def env_c1w : Env :=
  ⟨[⟨"0xmchpair", "MCH-WBNB", some "MCH", true, "v2"⟩], [],
   (fun a => if a = "0xmchpair" then some (1/25) else none), (fun _ => none), 0, 5⟩

/-- Environment where only the CoinGecko id `binancecoin` has a price; both
`WBNB` and `BNB` map to it in the hard-coded mapping. -/
def env_cg : Env :=
  ⟨[], [], fun _ => none,
   (fun cid => if cid = "binancecoin" then some 300 else none), 0, 5⟩

/-- A concrete baseline snapshot: TVL 1000, target-token amount 10. -/
def base_pd : PoolData := ⟨"0xp", "Pool", "T0", "T1", 1, 2, 1, 1, 1000, "T0", 10, 1, 400, 600, 40, 60⟩

/-- `base_pd` with TVL moved to 1051 (a 5.1 percent rise). -/
def pd_1051 : PoolData := { base_pd with tvl_usd := 1051 }

/-- `base_pd` with TVL moved to 1040 (a 4.0 percent rise). -/
def pd_1040 : PoolData := { base_pd with tvl_usd := 1040 }

/-- `base_pd` with a zero TVL, a legal snapshot (both token values zero). -/
def pd_tvl0 : PoolData := { base_pd with tvl_usd := 0 }

/-- `base_pd` with a zero token0 amount. -/
def pd_amt0 : PoolData := { base_pd with token0_amount := 0 }

/-- A store holding `base_pd` as the baseline for pool `0xp`. -/
def store_base : Store := updStore emptyStore "0xp" base_pd

/-- A pool configuration whose `target_token` matches neither leg symbol. -/
def cfg_xyz : PoolCfg := ⟨"0xpool", "Pool", some "XYZ", true, "v2"⟩

/-- A cache entry whose age at `now = 0` is exactly the 5-minute TTL. -/
def cache_boundary : PriceCache := updC emptyC "USDT" ⟨1, -5, "api"⟩

theorem char_toNat_ofNat_valid (n : Nat) (h : n.isValidChar) :
    (Char.ofNat n).toNat = n := by
  unfold Char.ofNat
  rw [dif_pos h]
  rfl

theorem char_toUpper_idem (c : Char) : c.toUpper.toUpper = c.toUpper := by
  unfold Char.toUpper
  by_cases h : c.toNat ≥ 97 ∧ c.toNat ≤ 122
  · rw [if_pos h]
    have hv : (c.toNat - 32).isValidChar := by
      constructor
      omega
    rw [char_toNat_ofNat_valid _ hv]
    rw [if_neg (by omega)]
  · rw [if_neg h, if_neg h]

theorem pyUpper_idem (s : String) : pyUpper (pyUpper s) = pyUpper s := by
  apply congrArg String.mk
  show (s.data.map Char.toUpper).map Char.toUpper = _
  rw [List.map_map]
  exact List.map_congr_left (fun c _ => char_toUpper_idem c)

/-- C3: for every symbol and cache state, `get_cached_price` returns a price
iff an entry for the case-normalised symbol exists and `now - observedAt <
ttl` holds strictly; an entry whose age is exactly the TTL is expired and
yields `none`. -/
theorem cache_freshness (env : Env) (cache : PriceCache) (symbol : String) :
    (∀ p : ℚ, get_cached_price env cache symbol = some p ↔
      ∃ e, cache (pyUpper symbol) = some e ∧ env.now - e.timestamp < env.ttl ∧ e.price = p)
    ∧ (∀ e, cache (pyUpper symbol) = some e → env.now - e.timestamp = env.ttl →
        get_cached_price env cache symbol = none) := by
  constructor
  · intro p
    cases h : cache (pyUpper symbol) with
    | none => simp [get_cached_price, cache_lookup, is_cache_valid, h]
    | some e =>
      by_cases hv : env.now - e.timestamp < env.ttl
      · simp [get_cached_price, cache_lookup, is_cache_valid, h, hv, eq_comm]
      · simp [get_cached_price, cache_lookup, is_cache_valid, h, hv]
  · intro e he hb
    have hv : ¬ env.now - e.timestamp < env.ttl := by
      rw [hb]
      exact lt_irrefl _
    simp [get_cached_price, cache_lookup, is_cache_valid, he, hv]

theorem cache_freshness_witness :
    env_cached.now - (-5 : ℚ) = env_cached.ttl ∧
    get_cached_price env_cached cache_boundary "usdt" = none :=
  ⟨by with_unfolding_all decide,
   (cache_freshness env_cached cache_boundary "usdt").2 ⟨1, -5, "api"⟩
     (by with_unfolding_all decide) (by with_unfolding_all decide)⟩

/-- C1: if either leg's price is absent from the resolver's result mapping,
`calculate_tvl` returns `none`; no partial or one-sided TVL value is
produced. -/
theorem tvl_all_or_nothing (env : Env) (cache : PriceCache)
    (token0_symbol token1_symbol : String) (token0_amount token1_amount : ℚ)
    (h : (get_multiple_token_prices env cache [token0_symbol, token1_symbol]).1
           (pyUpper token0_symbol) = none ∨
         (get_multiple_token_prices env cache [token0_symbol, token1_symbol]).1
           (pyUpper token1_symbol) = none) :
    (calculate_tvl env cache token0_symbol token1_symbol token0_amount token1_amount).1
      = none := by
  simp only [calculate_tvl]
  rcases h with h | h
  · rw [h]
  · rw [h]
    cases (get_multiple_token_prices env cache [token0_symbol, token1_symbol]).1
      (pyUpper token0_symbol) <;> rfl

theorem tvl_all_or_nothing_witness :
    (get_multiple_token_prices env_c1w emptyC ["MCH", "WBNB"]).1 (pyUpper "WBNB") = none ∧
    (calculate_tvl env_c1w emptyC "MCH" "WBNB" 1000 5).1 = none :=
  ⟨by with_unfolding_all decide,
   tvl_all_or_nothing env_c1w emptyC "MCH" "WBNB" 1000 5
     (Or.inr (by with_unfolding_all decide))⟩

/-- C5: on success, each leg's value is `amount * price`, the total is the sum
of the two values, shares are `100 * value / total` summing to 100 when the
total is positive, and both shares are zero when the total is zero. -/
theorem tvl_conservation (env : Env) (cache : PriceCache)
    (token0_symbol token1_symbol : String) (token0_amount token1_amount : ℚ) (r : TvlResult)
    (ha0 : 0 ≤ token0_amount) (ha1 : 0 ≤ token1_amount)
    (h : (calculate_tvl env cache token0_symbol token1_symbol
            token0_amount token1_amount).1 = some r) :
    r.token0_tvl = token0_amount * r.token0_price ∧
    r.token1_tvl = token1_amount * r.token1_price ∧
    r.total_tvl = r.token0_tvl + r.token1_tvl ∧
    (0 < r.total_tvl →
      r.token0_percentage = 100 * r.token0_tvl / r.total_tvl ∧
      r.token1_percentage = 100 * r.token1_tvl / r.total_tvl ∧
      r.token0_percentage + r.token1_percentage = 100) ∧
    (r.total_tvl = 0 → r.token0_percentage = 0 ∧ r.token1_percentage = 0) := by
  simp only [calculate_tvl] at h
  cases h0 : (get_multiple_token_prices env cache [token0_symbol, token1_symbol]).1
      (pyUpper token0_symbol) with
  | none =>
    rw [h0] at h
    simp at h
  | some p0 =>
    cases h1 : (get_multiple_token_prices env cache [token0_symbol, token1_symbol]).1
        (pyUpper token1_symbol) with
    | none =>
      rw [h0, h1] at h
      simp at h
    | some p1 =>
      rw [h0, h1] at h
      simp only [Option.some.injEq] at h
      subst h
      refine ⟨rfl, rfl, rfl, ?_, ?_⟩
      · intro hpos
        have hgt : token0_amount * p0 + token1_amount * p1 > 0 := hpos
        have ht : token0_amount * p0 + token1_amount * p1 ≠ 0 := ne_of_gt hgt
        refine ⟨?_, ?_, ?_⟩
        · show (if token0_amount * p0 + token1_amount * p1 > 0 then _ else _) = _
          rw [if_pos hgt]
          rw [div_mul_eq_mul_div, mul_comm]
        · show (if token0_amount * p0 + token1_amount * p1 > 0 then _ else _) = _
          rw [if_pos hgt]
          rw [div_mul_eq_mul_div, mul_comm]
        · show (if token0_amount * p0 + token1_amount * p1 > 0 then _ else _)
            + (if token0_amount * p0 + token1_amount * p1 > 0 then _ else _) = _
          rw [if_pos hgt, if_pos hgt]
          field_simp
          ring
      · intro hz
        have hz2 : token0_amount * p0 + token1_amount * p1 = 0 := hz
        have hnot : ¬ token0_amount * p0 + token1_amount * p1 > 0 := by
          rw [hz2]
          exact lt_irrefl 0
        constructor
        · show (if token0_amount * p0 + token1_amount * p1 > 0 then _ else _) = _
          rw [if_neg hnot]
        · show (if token0_amount * p0 + token1_amount * p1 > 0 then _ else _) = _
          rw [if_neg hnot]

theorem calc_mw_eval :
    (calculate_tvl env_cached cache_mw "MCH" "WBNB" 1000 5).1 = some r_mw := by
  have h0 : (get_multiple_token_prices env_cached cache_mw ["MCH", "WBNB"]).1
      (pyUpper "MCH") = some (1/25) := by with_unfolding_all decide
  have h1 : (get_multiple_token_prices env_cached cache_mw ["MCH", "WBNB"]).1
      (pyUpper "WBNB") = some 320 := by with_unfolding_all decide
  simp only [calculate_tvl, h0, h1, r_mw, Option.some.injEq, TvlResult.mk.injEq]
  have hpos : (1000:ℚ) * (1/25) + 5 * 320 > 0 := by norm_num
  rw [if_pos hpos, if_pos hpos]
  norm_num

theorem tvl_conservation_witness :
    (calculate_tvl env_cached cache_mw "MCH" "WBNB" 1000 5).1 = some r_mw ∧
    r_mw.token0_percentage + r_mw.token1_percentage = 100 := by
  have hcal := calc_mw_eval
  refine ⟨hcal, ?_⟩
  have h := tvl_conservation env_cached cache_mw "MCH" "WBNB" 1000 5 r_mw
    (by norm_num) (by norm_num) hcal
  exact (h.2.2.2.1 (by rw [show r_mw.total_tvl = 1640 from rfl]; norm_num)).2.2

/-- C4: with a baseline snapshot present (and nonzero baselines, which the
claim's formulas presuppose), an alert fires iff the absolute TVL change
percentage or the absolute target-amount change percentage reaches the
threshold, each computed as `100 * (new - old) / old`.  The claim's concrete
instances (1000→1051 fires at threshold 5, 1000→1040 does not) are checked in
the witness. -/
theorem change_detection_threshold (threshold : ℚ) (store : Store)
    (current_data prev_data : PoolData)
    (hprev : store current_data.pool_address = some prev_data)
    (h0 : prev_data.tvl_usd ≠ 0) (h1 : prev_data.target_token_amount ≠ 0) :
    alert_fired (check_for_changes threshold store current_data) = true ↔
      (threshold ≤ |100 * (current_data.tvl_usd - prev_data.tvl_usd) / prev_data.tvl_usd| ∨
       threshold ≤ |100 * (current_data.target_token_amount - prev_data.target_token_amount)
          / prev_data.target_token_amount|) := by
  have e0 : (current_data.tvl_usd - prev_data.tvl_usd) / prev_data.tvl_usd * 100 =
      100 * (current_data.tvl_usd - prev_data.tvl_usd) / prev_data.tvl_usd := by ring
  have e1 : (current_data.target_token_amount - prev_data.target_token_amount) /
        prev_data.target_token_amount * 100 =
      100 * (current_data.target_token_amount - prev_data.target_token_amount) /
        prev_data.target_token_amount := by ring
  by_cases hc :
      |(current_data.tvl_usd - prev_data.tvl_usd) / prev_data.tvl_usd * 100| ≥ threshold ∨
      |(current_data.target_token_amount - prev_data.target_token_amount) /
        prev_data.target_token_amount * 100| ≥ threshold
  · simp only [check_for_changes, hprev, pydiv, if_neg h0, if_neg h1, if_pos hc, alert_fired]
    rw [e0, e1] at hc
    simp only [ge_iff_le] at hc
    simp [hc]
  · simp only [check_for_changes, hprev, pydiv, if_neg h0, if_neg h1, if_neg hc, alert_fired]
    rw [e0, e1] at hc
    simp only [ge_iff_le] at hc
    simp [hc]

theorem change_detection_threshold_witness :
    alert_fired (check_for_changes 5 store_base pd_1051) = true ∧
    alert_fired (check_for_changes 5 store_base pd_1040) = false := by
  constructor
  · apply (change_detection_threshold 5 store_base pd_1051 base_pd
      rfl (by norm_num [base_pd]) (by norm_num [base_pd])).mpr
    left
    rw [show pd_1051.tvl_usd = 1051 from rfl, show base_pd.tvl_usd = 1000 from rfl,
      abs_of_nonneg (by norm_num : (0:ℚ) ≤ 100 * (1051 - 1000) / 1000)]
    norm_num
  · rw [← Bool.not_eq_true]
    intro hfired
    have h := (change_detection_threshold 5 store_base pd_1040 base_pd
      rfl (by norm_num [base_pd]) (by norm_num [base_pd])).mp hfired
    rw [show pd_1040.tvl_usd = 1040 from rfl, show base_pd.tvl_usd = 1000 from rfl,
      show pd_1040.target_token_amount = 10 from rfl,
      show base_pd.target_token_amount = 10 from rfl] at h
    rcases h with h | h <;> rw [abs_of_nonneg (by norm_num)] at h <;> norm_num at h

/-- C6: the first snapshot of a pool never alerts and unconditionally installs
the baseline; with a baseline present (nonzero, so the comparison completes)
the alert decision is computed exactly from the stored previous snapshot and
the new one, and the new snapshot replaces the old wholesale; after any
successful call the store maps the pool to the new snapshot, so the pool stays
in the has-baseline state. -/
theorem snapshot_state_transition (threshold : ℚ) (store : Store) (current_data : PoolData) :
    (store current_data.pool_address = none →
      check_for_changes threshold store current_data =
        Except.ok (none, updStore store current_data.pool_address current_data))
    ∧ (∀ prev_data, store current_data.pool_address = some prev_data →
        prev_data.tvl_usd ≠ 0 → prev_data.target_token_amount ≠ 0 →
        check_for_changes threshold store current_data =
          Except.ok (alert_decision threshold prev_data current_data,
            updStore store current_data.pool_address current_data))
    ∧ (∀ a st, check_for_changes threshold store current_data = Except.ok (a, st) →
        st current_data.pool_address = some current_data) := by
  have hupd : updStore store current_data.pool_address current_data
      current_data.pool_address = some current_data := by
    simp [updStore]
  refine ⟨?_, ?_, ?_⟩
  · intro h
    simp [check_for_changes, h]
  · intro prev_data h hp0 hp1
    simp only [check_for_changes, h, pydiv, if_neg hp0, if_neg hp1, alert_decision]
  · intro a st h
    cases hs : store current_data.pool_address with
    | none =>
      simp only [check_for_changes, hs, Except.ok.injEq, Prod.mk.injEq] at h
      rw [← h.2]
      exact hupd
    | some prev_data =>
      simp only [check_for_changes, hs, pydiv] at h
      by_cases hz0 : prev_data.tvl_usd = 0
      · simp [if_pos hz0] at h
      · by_cases hz1 : prev_data.target_token_amount = 0
        · simp [if_neg hz0, if_pos hz1] at h
        · simp only [if_neg hz0, if_neg hz1, Except.ok.injEq, Prod.mk.injEq] at h
          rw [← h.2]
          exact hupd

theorem snapshot_state_transition_witness :
    check_for_changes 5 emptyStore base_pd =
      Except.ok (none, updStore emptyStore base_pd.pool_address base_pd) ∧
    check_for_changes 5 store_base pd_1051 =
      Except.ok (alert_decision 5 base_pd pd_1051,
        updStore store_base pd_1051.pool_address pd_1051) :=
  ⟨(snapshot_state_transition 5 emptyStore base_pd).1 rfl,
   (snapshot_state_transition 5 store_base pd_1051).2.1 base_pd
     rfl (by norm_num [base_pd]) (by norm_num [base_pd])⟩

/-- C10: in `monitor_pool`, whenever the configured `target_token` differs
from token0's symbol, the snapshot's target amount and price are taken from
token1 unconditionally — including when the target matches neither leg's
symbol (the witness uses such a target); there is no error or skip for an
unknown target token. -/
theorem target_token_fallback (env : Env) (cache : PriceCache) (pool_config : PoolCfg)
    (token0_symbol token1_symbol : String) (token0_amount token1_amount : ℚ)
    (tgt : String) (r : TvlResult)
    (htgt : pool_config.target_token = some tgt) (hne : tgt ≠ token0_symbol)
    (hcal : (calculate_tvl env cache token0_symbol token1_symbol
        token0_amount token1_amount).1 = some r) :
    ∃ d, (monitor_pool env cache
        (some (token0_symbol, token1_symbol, token0_amount, token1_amount)) pool_config).1
        = some d ∧
      d.target_token = tgt ∧ d.target_token_amount = token1_amount ∧
      d.target_token_price = r.token1_price := by
  have hsplit : calculate_tvl env cache token0_symbol token1_symbol token0_amount token1_amount
      = (some r, (calculate_tvl env cache token0_symbol token1_symbol
          token0_amount token1_amount).2) := by
    rw [← hcal]
  simp only [monitor_pool]
  rw [hsplit]
  simp only [htgt, Option.getD_some]
  rw [if_neg hne]
  exact ⟨_, rfl, rfl, rfl, rfl⟩

theorem target_token_fallback_witness :
    ∃ d, (monitor_pool env_cached cache_mw (some ("MCH", "WBNB", 1000, 5)) cfg_xyz).1
        = some d ∧
      d.target_token = "XYZ" ∧ d.target_token_amount = 5 ∧
      d.target_token_price = r_mw.token1_price :=
  target_token_fallback env_cached cache_mw cfg_xyz "MCH" "WBNB" 1000 5 "XYZ" r_mw
    rfl (by decide) calc_mw_eval

/-- C8 counterexample: with a baseline whose token0 amount is zero,
`send_alert_webhook` produces no message at all — the construction raises
`ZeroDivisionError` internally and the handler swallows it, so the claim that
the message is still produced with the percentage rendered as an explicit
n/a fails. -/
theorem alert_message_counterexample :
    pd_amt0.token0_amount = 0 ∧
    send_alert_webhook "t" base_pd pd_amt0 10 0 5 = none := by
  exact ⟨rfl, rfl⟩

/-- C8 (amended): building the alert message succeeds iff all four per-leg
baselines (token0/token1 amount and value) are nonzero; when any is zero the
construction raises `ZeroDivisionError`, the surrounding handler catches and
logs it, and no message is produced — nothing is rendered as n/a and no
exception reaches the caller. -/
theorem alert_message_total (nowStr : String) (current_data prev_data : PoolData)
    (tvl_change_percent target_change_percent threshold : ℚ) :
    (send_alert_webhook nowStr current_data prev_data
        tvl_change_percent target_change_percent threshold).isSome = true ↔
      (prev_data.token0_amount ≠ 0 ∧ prev_data.token0_tvl ≠ 0 ∧
       prev_data.token1_amount ≠ 0 ∧ prev_data.token1_tvl ≠ 0) := by
  unfold send_alert_webhook build_alert_message pydiv
  by_cases h0 : prev_data.token0_amount = 0 <;>
    by_cases h1 : prev_data.token0_tvl = 0 <;>
    by_cases h2 : prev_data.token1_amount = 0 <;>
    by_cases h3 : prev_data.token1_tvl = 0 <;>
    simp [h0, h1, h2, h3, Except.toOption, bind, Except.bind, pure, Except.pure]

theorem check_ok_of_good (threshold : ℚ) (store : Store) (cur : PoolData)
    (h : ∀ d, store cur.pool_address = some d → goodB d = true) :
    ∃ a, check_for_changes threshold store cur =
      Except.ok (a, updStore store cur.pool_address cur) := by
  cases hs : store cur.pool_address with
  | none => exact ⟨none, by simp [check_for_changes, hs]⟩
  | some prev =>
    have hg := h prev hs
    simp only [goodB, Bool.and_eq_true, bne_iff_ne, ne_eq] at hg
    refine ⟨if |(cur.tvl_usd - prev.tvl_usd) / prev.tvl_usd * 100| ≥ threshold ∨
        |(cur.target_token_amount - prev.target_token_amount) /
          prev.target_token_amount * 100| ≥ threshold
      then some ((cur.tvl_usd - prev.tvl_usd) / prev.tvl_usd * 100,
        (cur.target_token_amount - prev.target_token_amount) /
          prev.target_token_amount * 100)
      else none, ?_⟩
    simp only [check_for_changes, hs, pydiv, if_neg hg.1, if_neg hg.2]

theorem process_cycle_ok (threshold : ℚ) (results : List (Option PoolData)) (store : Store)
    (hst : ∀ a d, store a = some d → goodB d = true)
    (hres : ∀ od ∈ results, ∀ d, od = some d → goodB d = true) :
    ∃ st, process_cycle threshold store results = Except.ok st ∧
      (∀ a d, st a = some d → goodB d = true) := by
  induction results generalizing store with
  | nil => exact ⟨store, rfl, hst⟩
  | cons od rest ih =>
    cases od with
    | none =>
      have hrest : ∀ od ∈ rest, ∀ d, od = some d → goodB d = true :=
        fun od hod => hres od (List.mem_cons_of_mem _ hod)
      exact ih store hst hrest
    | some d =>
      have hd : goodB d = true := hres (some d) (List.mem_cons_self _ _) d rfl
      obtain ⟨a, ha⟩ := check_ok_of_good threshold store d (fun d' hd' => hst _ _ hd')
      have hst' : ∀ x d', updStore store d.pool_address d x = some d' → goodB d' = true := by
        intro x d' hx
        by_cases hxk : x = d.pool_address
        · rw [updStore, if_pos hxk] at hx
          cases hx
          exact hd
        · rw [updStore, if_neg hxk] at hx
          exact hst x d' hx
      have hrest : ∀ od ∈ rest, ∀ d, od = some d → goodB d = true :=
        fun od hod => hres od (List.mem_cons_of_mem _ hod)
      simp only [process_cycle, ha]
      exact ih _ hst' hrest

theorem run_completes (threshold : ℚ) (cycles : List (List (Option PoolData))) (store : Store)
    (hst : ∀ a d, store a = some d → goodB d = true)
    (hcy : ∀ cyc ∈ cycles, ∀ od ∈ cyc, ∀ d, od = some d → goodB d = true) :
    (run threshold store cycles).2 = cycles.length := by
  induction cycles generalizing store with
  | nil => rfl
  | cons cyc rest ih =>
    obtain ⟨st, hok, hst'⟩ := process_cycle_ok threshold cyc store hst
      (hcy cyc (List.mem_cons_self _ _))
    simp only [run, hok]
    rw [ih st hst' (fun c hc => hcy c (List.mem_cons_of_mem _ hc))]
    simp

/-- C7 counterexample: a pool baseline with zero TVL is fatal to the loop —
`check_for_changes` raises `ZeroDivisionError` in the following cycle, the
exception escapes the cycle (the `try` sits outside the `while`), and of a
two-cycle schedule only the first completes. -/
theorem loop_survival_counterexample :
    pd_tvl0.tvl_usd = 0 ∧
    (process_cycle 5 (updStore emptyStore "0xp" pd_tvl0) [some pd_1040]).isOk = false ∧
    (run 5 emptyStore [[some pd_tvl0], [some pd_1040]]).2 = 1 :=
  ⟨rfl, rfl, rfl⟩

/-- C7 (amended): no single pool's or symbol's failure in a cycle is fatal —
skipped pools (`none` results) never abort anything — provided every baseline
snapshot involved has nonzero TVL and nonzero target-token amount; then no
exception escapes any cycle and the loop runs every scheduled cycle.  (With a
zero baseline, the `ZeroDivisionError` terminates the loop, see the
counterexample.) -/
theorem loop_survival (threshold : ℚ) (store : Store)
    (cycles : List (List (Option PoolData)))
    (hst : ∀ a d, store a = some d → goodB d = true)
    (hcy : cycles.all (fun cyc => cyc.all (fun od =>
      match od with | none => true | some d => goodB d)) = true) :
    (run threshold store cycles).2 = cycles.length := by
  apply run_completes threshold cycles store hst
  intro cyc hcyc od hod d hd
  rw [List.all_eq_true] at hcy
  have h1 := hcy cyc hcyc
  rw [List.all_eq_true] at h1
  have h2 := h1 od hod
  rw [hd] at h2
  exact h2

theorem loop_survival_witness :
    (run 5 emptyStore [[some base_pd], [none, some pd_1051]]).2 = 2 := by
  apply loop_survival 5 emptyStore [[some base_pd], [none, some pd_1051]]
  · intro a d h
    simp [emptyStore] at h
  · simp only [List.all_cons, List.all_nil, Bool.and_eq_true, goodB, bne_iff_ne, ne_eq]
    refine ⟨⟨⟨?_, ?_⟩, trivial⟩, ⟨trivial, ⟨?_, ?_⟩, trivial⟩, trivial⟩
    · norm_num [base_pd]
    · norm_num [base_pd]
    · norm_num [pd_1051, base_pd]
    · norm_num [pd_1051, base_pd]

theorem fetch_dex_foldl (env : Env) (symbols : List String) (m : PriceMap) (k : String) :
    (symbols.foldl (fun prices symbol =>
      match get_dexscreener_pair_addresses env (pyUpper symbol) with
      | none => prices
      | some pair_address =>
        match env.dexApi pair_address with
        | some price => updQ prices (pyUpper symbol) price
        | none => prices) m) k =
    if (symbols.any (fun s => pyUpper s == k)) && (dex_quote env k).isSome
    then dex_quote env k else m k := by
  induction symbols generalizing m with
  | nil => simp
  | cons s rest ih =>
    simp only [List.foldl_cons, List.any_cons]
    rw [ih]
    by_cases hk : pyUpper s = k
    · subst hk
      cases hpa : get_dexscreener_pair_addresses env (pyUpper s) with
      | none =>
        simp [dex_quote, hpa]
      | some addr =>
        cases hdx : env.dexApi addr with
        | none => simp [dex_quote, hpa, hdx]
        | some p => simp [dex_quote, hpa, hdx, updQ]
    · have hbk : (pyUpper s == k) = false := by simp [hk]
      have hstep : (match get_dexscreener_pair_addresses env (pyUpper s) with
          | none => m
          | some pair_address =>
            match env.dexApi pair_address with
            | some price => updQ m (pyUpper s) price
            | none => m) k = m k := by
        cases hpa : get_dexscreener_pair_addresses env (pyUpper s) with
        | none => rfl
        | some addr =>
          cases hdx : env.dexApi addr with
          | none => simp [hdx]
          | some p => simp [hdx, updQ, Ne.symm hk]
      rw [hstep]
      simp only [hbk, Bool.false_or]

theorem fetch_dex_char (env : Env) (symbols : List String) (k : String) :
    fetch_prices_from_dexscreener env symbols k =
      if symbols.any (fun s => pyUpper s == k) then dex_quote env k else none := by
  unfold fetch_prices_from_dexscreener
  rw [fetch_dex_foldl]
  cases hany : (symbols.any fun s => pyUpper s == k) <;>
    cases hdq : dex_quote env k <;> simp [hany, hdq, emptyQ]

theorem updS_foldl_lookup (pairs : List (String × String)) (m : StrMap) (k : String) :
    (pairs.foldl (fun m p => updS m p.1 p.2) m) k =
      match pairs.reverse.find? (fun p => p.1 == k) with
      | some p => some p.2
      | none => m k := by
  induction pairs generalizing m with
  | nil => simp
  | cons p rest ih =>
    simp only [List.foldl_cons, List.reverse_cons]
    rw [ih, List.find?_append]
    cases hf : rest.reverse.find? (fun q => q.1 == k) with
    | some q => simp [Option.or]
    | none =>
      by_cases hk : p.1 = k
      · simp [Option.or, List.find?, hk, updS]
      · have hbk : (p.1 == k) = false := by simp [hk]
        simp [Option.or, List.find?, hbk, updS, Ne.symm hk]

theorem cg_pairs_mem (env : Env) (symbols : List String) (cid k : String) :
    ((cid, k) ∈ cg_pairs env symbols) ↔
    ((∃ s ∈ symbols, pyUpper s = k) ∧ get_coingecko_mapping env k = some cid) := by
  unfold cg_pairs
  rw [List.mem_filterMap]
  constructor
  · rintro ⟨s, hs, hf⟩
    rw [Option.map_eq_some'] at hf
    obtain ⟨c, hc, hck⟩ := hf
    rw [Prod.mk.injEq] at hck
    obtain ⟨rfl, rfl⟩ := hck
    exact ⟨⟨s, hs, rfl⟩, hc⟩
  · rintro ⟨⟨s, hs, rfl⟩, hm⟩
    exact ⟨s, hs, by rw [hm]; rfl⟩

theorem cg_symbol_to_id_sound (env : Env) (symbols : List String) (cid k : String)
    (h : cg_symbol_to_id env symbols cid = some k) :
    (cid, k) ∈ cg_pairs env symbols := by
  unfold cg_symbol_to_id at h
  rw [updS_foldl_lookup] at h
  cases hf : (cg_pairs env symbols).reverse.find? (fun q => q.1 == cid) with
  | none =>
    rw [hf] at h
    exact absurd h (by simp [emptyS])
  | some q =>
    rw [hf] at h
    have hq1 : q.1 = cid := by simpa using List.find?_some hf
    have hqm := List.mem_reverse.mp (List.mem_of_find?_eq_some hf)
    have hq : q = (cid, k) := by
      rw [Prod.ext_iff]
      exact ⟨hq1, Option.some.inj h⟩
    rw [← hq]
    exact hqm

theorem cg_symbol_to_id_complete (env : Env) (symbols : List String) (cid k : String)
    (hH : ∀ s ∈ symbols, ∀ t ∈ symbols,
      get_coingecko_mapping env (pyUpper s) = get_coingecko_mapping env (pyUpper t) →
      get_coingecko_mapping env (pyUpper s) = none ∨ pyUpper s = pyUpper t)
    (hmem : (cid, k) ∈ cg_pairs env symbols) :
    cg_symbol_to_id env symbols cid = some k := by
  obtain ⟨⟨t, ht, htk⟩, hmk⟩ := (cg_pairs_mem env symbols cid k).mp hmem
  unfold cg_symbol_to_id
  rw [updS_foldl_lookup]
  cases hf : (cg_pairs env symbols).reverse.find? (fun q => q.1 == cid) with
  | none =>
    exfalso
    have hsome : ((cg_pairs env symbols).reverse.find? (fun q => q.1 == cid)).isSome := by
      rw [List.find?_isSome]
      exact ⟨(cid, k), List.mem_reverse.mpr hmem, by simp⟩
    rw [hf] at hsome
    simp at hsome
  | some q =>
    have hq1 : q.1 = cid := by simpa using List.find?_some hf
    have hqm := List.mem_reverse.mp (List.mem_of_find?_eq_some hf)
    obtain ⟨⟨s, hs, hsk⟩, hm⟩ := (cg_pairs_mem env symbols q.1 q.2).mp hqm
    have hms : get_coingecko_mapping env (pyUpper s) = some cid := by
      rw [hsk, ← hq1]
      exact hm
    have hmt : get_coingecko_mapping env (pyUpper t) = some cid := by
      rw [htk]
      exact hmk
    rcases hH s hs t ht (by rw [hms, hmt]) with hnone | heq
    · rw [hms] at hnone
      exact absurd hnone (by simp)
    · rw [hsk, htk] at heq
      simp [heq]

theorem cg_fold_at_key (env : Env) (dict : StrMap) (ids : List String) (m : PriceMap) (k : String)
    (hdict : ∀ cid ∈ ids, dict cid = some k → get_coingecko_mapping env k = some cid) :
    (ids.foldl (fun prices cid =>
      match dict cid, env.cgApi cid with
      | some symbol, some price =>
        if symbol ≠ "" ∧ price ≠ 0 then updQ prices symbol price else prices
      | some _, none => prices
      | none, _ => prices) m) k =
    if (ids.any (fun cid => dict cid == some k)) && (cg_quote env k).isSome
    then cg_quote env k else m k := by
  induction ids generalizing m with
  | nil => simp
  | cons cid rest ih =>
    simp only [List.foldl_cons, List.any_cons]
    rw [ih _ (fun c hc => hdict c (List.mem_cons_of_mem _ hc))]
    by_cases hck : dict cid = some k
    · have hmap : get_coingecko_mapping env k = some cid := hdict cid (List.mem_cons_self _ _) hck
      have hbk : (dict cid == some k) = true := by simp [hck]
      cases hapi : env.cgApi cid with
      | none =>
        have hq : cg_quote env k = none := by simp [cg_quote, hmap, hapi]
        simp [hck, hapi, hq, hbk]
      | some p =>
        by_cases hg : k ≠ "" ∧ p ≠ 0
        · have hq : cg_quote env k = some p := by
            simp only [cg_quote, hmap, hapi]
            rw [if_pos hg]
          simp [hck, hapi, hg, hq, hbk, updQ]
        · have hq : cg_quote env k = none := by
            simp only [cg_quote, hmap, hapi]
            rw [if_neg hg]
          simp [hck, hapi, hg, hq, hbk]
    · have hbk : (dict cid == some k) = false := by simp [hck]
      have hstep : (match dict cid, env.cgApi cid with
          | some symbol, some price =>
            if symbol ≠ "" ∧ price ≠ 0 then updQ m symbol price else m
          | some _, none => m
          | none, _ => m) k = m k := by
        cases hd : dict cid with
        | none => simp [hd]
        | some sym =>
          cases hapi : env.cgApi cid with
          | none => simp [hd, hapi]
          | some p =>
            by_cases hg : sym ≠ "" ∧ p ≠ 0
            · have hsymk : sym ≠ k := by
                intro he
                exact hck (by rw [hd, he])
              simp [hd, hapi, hg, updQ, Ne.symm hsymk]
            · simp [hd, hapi, hg]
      rw [hstep]
      simp only [hbk, Bool.false_or]

theorem fetch_cg_char (env : Env) (symbols : List String) (k : String)
    (hH : ∀ s ∈ symbols, ∀ t ∈ symbols,
      get_coingecko_mapping env (pyUpper s) = get_coingecko_mapping env (pyUpper t) →
      get_coingecko_mapping env (pyUpper s) = none ∨ pyUpper s = pyUpper t) :
    fetch_prices_from_coingecko env symbols k =
      if symbols.any (fun s => pyUpper s == k) then cg_quote env k else none := by
  unfold fetch_prices_from_coingecko
  by_cases hemp : ((cg_pairs env symbols).map Prod.fst).isEmpty
  · rw [if_pos hemp]
    cases hany : (symbols.any fun s => pyUpper s == k)
    · simp [hany, emptyQ]
    · have hex := hany
      rw [List.any_eq_true] at hex
      obtain ⟨s, hs, hsk⟩ := hex
      rw [beq_iff_eq] at hsk
      cases hm : get_coingecko_mapping env k with
      | none => simp [hany, emptyQ, cg_quote, hm]
      | some cid =>
        exfalso
        have hmem : (cid, k) ∈ cg_pairs env symbols :=
          (cg_pairs_mem env symbols cid k).mpr ⟨⟨s, hs, hsk⟩, hm⟩
        have hcid : cid ∈ (cg_pairs env symbols).map Prod.fst :=
          List.mem_map_of_mem _ hmem
        rw [List.isEmpty_iff] at hemp
        rw [hemp] at hcid
        simp at hcid
  · rw [if_neg hemp]
    have hdict : ∀ cid ∈ (cg_pairs env symbols).map Prod.fst,
        cg_symbol_to_id env symbols cid = some k →
        get_coingecko_mapping env k = some cid := by
      intro cid _ hc
      exact ((cg_pairs_mem env symbols cid k).mp
        (cg_symbol_to_id_sound env symbols cid k hc)).2
    rw [cg_fold_at_key env (cg_symbol_to_id env symbols) _ emptyQ k hdict]
    cases hany : (symbols.any fun s => pyUpper s == k)
    · have hidsany : (((cg_pairs env symbols).map Prod.fst).any
          (fun cid => cg_symbol_to_id env symbols cid == some k)) = false := by
        by_contra hne
        rw [Bool.not_eq_false, List.any_eq_true] at hne
        obtain ⟨cid, hcid, hc⟩ := hne
        rw [beq_iff_eq] at hc
        have hmem := cg_symbol_to_id_sound env symbols cid k hc
        obtain ⟨⟨s, hs, hsk⟩, -⟩ := (cg_pairs_mem env symbols cid k).mp hmem
        have htrue : (symbols.any fun s => pyUpper s == k) = true := by
          rw [List.any_eq_true]
          exact ⟨s, hs, by simp [hsk]⟩
        rw [hany] at htrue
        exact Bool.false_ne_true htrue
      simp [hany, hidsany, emptyQ]
    · have hex := hany
      rw [List.any_eq_true] at hex
      obtain ⟨s, hs, hsk⟩ := hex
      rw [beq_iff_eq] at hsk
      cases hm : get_coingecko_mapping env k with
      | none =>
        have hq : cg_quote env k = none := by simp [cg_quote, hm]
        simp [hany, hq, emptyQ]
      | some cid =>
        have hmem : (cid, k) ∈ cg_pairs env symbols :=
          (cg_pairs_mem env symbols cid k).mpr ⟨⟨s, hs, hsk⟩, hm⟩
        have hdk : cg_symbol_to_id env symbols cid = some k :=
          cg_symbol_to_id_complete env symbols cid k hH hmem
        have hidsany : (((cg_pairs env symbols).map Prod.fst).any
            (fun c => cg_symbol_to_id env symbols c == some k)) = true := by
          rw [List.any_eq_true]
          exact ⟨cid, List.mem_map_of_mem _ hmem, by simp [hdk]⟩
        rw [hidsany]
        cases hq : cg_quote env k with
        | none => simp [hany, hq, emptyQ]
        | some p => simp [hany, hq]

theorem checked_foldl (env : Env) (cache : PriceCache) (symbols : List String)
    (m : PriceMap) (u : List String) :
    (symbols.foldl (fun (acc : PriceMap × List String) symbol =>
      match get_cached_price env cache symbol with
      | some cached_price => (updQ acc.1 (pyUpper symbol) cached_price, acc.2)
      | none => (acc.1, acc.2 ++ [symbol])) (m, u)) =
    (fun k => if (symbols.any (fun s => pyUpper s == k))
          && (cache_lookup env cache k).isSome
        then cache_lookup env cache k else m k,
     u ++ symbols.filter (fun s => (cache_lookup env cache (pyUpper s)).isNone)) := by
  induction symbols generalizing m u with
  | nil =>
    rw [Prod.ext_iff]
    constructor
    · funext k
      simp
    · simp
  | cons s rest ih =>
    simp only [List.foldl_cons]
    cases hc : get_cached_price env cache s with
    | some p =>
      rw [ih]
      have hcl : cache_lookup env cache (pyUpper s) = some p := hc
      rw [Prod.ext_iff]
      constructor
      · funext k
        by_cases hk : pyUpper s = k
        · subst hk
          simp [hcl, updQ]
        · have hbk : (pyUpper s == k) = false := by simp [hk]
          simp only [List.any_cons, hbk, Bool.false_or]
          have : updQ m (pyUpper s) p k = m k := by
            simp [updQ, Ne.symm hk]
          rw [this]
      · have : (cache_lookup env cache (pyUpper s)).isNone = false := by
          rw [hcl]
          rfl
        simp [List.filter_cons, this]
    | none =>
      rw [ih]
      have hcl : cache_lookup env cache (pyUpper s) = none := hc
      rw [Prod.ext_iff]
      constructor
      · funext k
        by_cases hk : pyUpper s = k
        · subst hk
          simp [hcl]
        · have hbk : (pyUpper s == k) = false := by simp [hk]
          simp only [List.any_cons, hbk, Bool.false_or]
      · have : (cache_lookup env cache (pyUpper s)).isNone = true := by
          rw [hcl]
          rfl
        simp [List.filter_cons, this]

theorem resolve_foldl (env : Env) (dexp cgp : PriceMap) (unc : List String)
    (acc : PriceMap × PriceCache) (k : String) :
    ((unc.foldl (fun (acc : PriceMap × PriceCache) symbol =>
      match dexp (pyUpper symbol) with
      | some price => (updQ acc.1 (pyUpper symbol) price,
                       set_cached_price env acc.2 (pyUpper symbol) price "dexscreener")
      | none =>
        match cgp (pyUpper symbol) with
        | some price => (updQ acc.1 (pyUpper symbol) price,
                         set_cached_price env acc.2 (pyUpper symbol) price "coingecko")
        | none => acc) acc).1) k =
    if (unc.any (fun s => pyUpper s == k)) && ((dexp k).or (cgp k)).isSome
    then (dexp k).or (cgp k) else acc.1 k := by
  induction unc generalizing acc with
  | nil => simp
  | cons s rest ih =>
    simp only [List.foldl_cons, List.any_cons]
    rw [ih]
    by_cases hk : pyUpper s = k
    · subst hk
      cases hd : dexp (pyUpper s) with
      | some p => simp [hd, Option.or, updQ]
      | none =>
        cases hg : cgp (pyUpper s) with
        | some p => simp [hd, hg, Option.or, updQ]
        | none => simp [hd, hg, Option.or]
    · have hbk : (pyUpper s == k) = false := by simp [hk]
      have hstep : ((match dexp (pyUpper s) with
          | some price => (updQ acc.1 (pyUpper s) price,
                           set_cached_price env acc.2 (pyUpper s) price "dexscreener")
          | none =>
            match cgp (pyUpper s) with
            | some price => (updQ acc.1 (pyUpper s) price,
                             set_cached_price env acc.2 (pyUpper s) price "coingecko")
            | none => acc) : PriceMap × PriceCache).1 k = acc.1 k := by
        cases hd : dexp (pyUpper s) with
        | some p => simp [hd, updQ, Ne.symm hk]
        | none =>
          cases hg : cgp (pyUpper s) with
          | some p => simp [hd, hg, updQ, Ne.symm hk]
          | none => simp [hd, hg]
      rw [hstep]
      simp only [hbk, Bool.false_or]

theorem get_multiple_char (env : Env) (cache : PriceCache) (symbols : List String) (k : String)
    (hH : ∀ s ∈ symbols, ∀ t ∈ symbols,
      get_coingecko_mapping env (pyUpper s) = get_coingecko_mapping env (pyUpper t) →
      get_coingecko_mapping env (pyUpper s) = none ∨ pyUpper s = pyUpper t) :
    (get_multiple_token_prices env cache symbols).1 k =
      if symbols.any (fun s => pyUpper s == k) then resolve_one_spec env cache k else none := by
  simp only [get_multiple_token_prices]
  rw [checked_foldl]
  simp only [List.nil_append]
  set SF := symbols.filter (fun s => (cache_lookup env cache (pyUpper s)).isNone) with hSF
  by_cases hemp : SF.isEmpty
  · rw [if_pos hemp]
    cases hany : (symbols.any fun s => pyUpper s == k)
    · simp [hany, emptyQ]
    · have hex := hany
      rw [List.any_eq_true] at hex
      obtain ⟨s, hs, hsk⟩ := hex
      rw [beq_iff_eq] at hsk
      cases hcl : cache_lookup env cache k with
      | none =>
        exfalso
        have hmemf : s ∈ SF := by
          rw [hSF]
          refine List.mem_filter.mpr ⟨hs, ?_⟩
          rw [hsk, hcl]
          rfl
        rw [List.isEmpty_iff] at hemp
        rw [hemp] at hmemf
        simp at hmemf
      | some p =>
        simp [hany, hcl, resolve_one_spec]
  · rw [if_neg hemp]
    rw [resolve_foldl]
    cases hany : (symbols.any fun s => pyUpper s == k)
    · have hSFany : (SF.any fun s => pyUpper s == k) = false := by
        by_contra hne
        rw [Bool.not_eq_false, List.any_eq_true] at hne
        obtain ⟨s, hsSF, hsk⟩ := hne
        have hs : s ∈ symbols := (List.mem_filter.mp (hSF ▸ hsSF)).1
        have htrue : (symbols.any fun s => pyUpper s == k) = true :=
          List.any_eq_true.mpr ⟨s, hs, hsk⟩
        rw [hany] at htrue
        exact Bool.false_ne_true htrue
      simp [hany, hSFany, emptyQ]
    · have hex := hany
      rw [List.any_eq_true] at hex
      obtain ⟨s, hs, hsk⟩ := hex
      rw [beq_iff_eq] at hsk
      cases hcl : cache_lookup env cache k with
      | some p =>
        have hSFany : (SF.any fun t => pyUpper t == k) = false := by
          by_contra hne
          rw [Bool.not_eq_false, List.any_eq_true] at hne
          obtain ⟨t, htSF, htk⟩ := hne
          rw [beq_iff_eq] at htk
          have hpred := (List.mem_filter.mp (hSF ▸ htSF)).2
          rw [htk, hcl] at hpred
          exact Bool.false_ne_true hpred
        simp [hany, hSFany, hcl, resolve_one_spec]
      | none =>
        have hsSF : s ∈ SF := by
          rw [hSF]
          refine List.mem_filter.mpr ⟨hs, ?_⟩
          rw [hsk, hcl]
          rfl
        have hSFany : (SF.any fun t => pyUpper t == k) = true :=
          List.any_eq_true.mpr ⟨s, hsSF, by simp [hsk]⟩
        have hdex : fetch_prices_from_dexscreener env SF k = dex_quote env k := by
          rw [fetch_dex_char, hSFany]
          rfl
        cases hdq : dex_quote env k with
        | some p =>
          rw [hdex] at *
          simp [hany, hSFany, hdq, hdex, Option.or, resolve_one_spec, hcl]
        | none =>
          set R := SF.filter
            (fun s => ((fetch_prices_from_dexscreener env SF) (pyUpper s)).isNone) with hR
          have hsR : s ∈ R := by
            rw [hR]
            refine List.mem_filter.mpr ⟨hsSF, ?_⟩
            rw [hsk, hdex, hdq]
            rfl
          have hRemp : R.isEmpty = false := by
            cases hRe : R.isEmpty
            · rfl
            · rw [List.isEmpty_iff] at hRe
              rw [hRe] at hsR
              simp at hsR
          have hHR : ∀ x ∈ R, ∀ y ∈ R,
              get_coingecko_mapping env (pyUpper x) = get_coingecko_mapping env (pyUpper y) →
              get_coingecko_mapping env (pyUpper x) = none ∨ pyUpper x = pyUpper y := by
            intro x hx y hy
            have hx' : x ∈ symbols :=
              (List.mem_filter.mp (hSF ▸ (List.mem_filter.mp (hR ▸ hx)).1)).1
            have hy' : y ∈ symbols :=
              (List.mem_filter.mp (hSF ▸ (List.mem_filter.mp (hR ▸ hy)).1)).1
            exact hH x hx' y hy'
          have hRany : (R.any fun t => pyUpper t == k) = true :=
            List.any_eq_true.mpr ⟨s, hsR, by simp [hsk]⟩
          have hcg : fetch_prices_from_coingecko env R k = cg_quote env k := by
            rw [fetch_cg_char env R k hHR, hRany]
            rfl
          rw [hRemp]
          cases hq : cg_quote env k with
          | some p =>
            simp [hany, hSFany, hdex, hdq, hcg, hq, Option.or, resolve_one_spec, hcl]
          | none =>
            simp [hany, hSFany, hdex, hdq, hcg, hq, Option.or, resolve_one_spec, hcl, emptyQ]

theorem get_token_price_char (env : Env) (cache : PriceCache) (symbol : String) :
    (get_token_price env cache symbol).1 = resolve_one_spec env cache (pyUpper symbol) := by
  simp only [get_token_price]
  have hc : get_cached_price env cache (pyUpper symbol) =
      cache_lookup env cache (pyUpper symbol) := by
    unfold get_cached_price
    rw [pyUpper_idem]
  rw [hc]
  have hH1 : ∀ s ∈ [pyUpper symbol], ∀ t ∈ [pyUpper symbol],
      get_coingecko_mapping env (pyUpper s) = get_coingecko_mapping env (pyUpper t) →
      get_coingecko_mapping env (pyUpper s) = none ∨ pyUpper s = pyUpper t := by
    intro s hs t ht _
    right
    rw [List.mem_singleton] at hs ht
    rw [hs, ht]
  cases hcl : cache_lookup env cache (pyUpper symbol) with
  | some p => simp [resolve_one_spec, hcl]
  | none =>
    have hany : ([pyUpper symbol].any fun s => pyUpper s == pyUpper symbol) = true := by
      simp [pyUpper_idem]
    have hdex : fetch_prices_from_dexscreener env [pyUpper symbol] (pyUpper symbol)
        = dex_quote env (pyUpper symbol) := by
      rw [fetch_dex_char, hany]
      rfl
    rw [hdex]
    cases hdq : dex_quote env (pyUpper symbol) with
    | some p => simp [resolve_one_spec, hcl, hdq]
    | none =>
      have hcg : fetch_prices_from_coingecko env [pyUpper symbol] (pyUpper symbol)
          = cg_quote env (pyUpper symbol) := by
        rw [fetch_cg_char env _ _ hH1, hany]
        rfl
      rw [hcg]
      cases hq : cg_quote env (pyUpper symbol) with
      | some p => simp [resolve_one_spec, hcl, hdq, hq]
      | none => simp [resolve_one_spec, hcl, hdq, hq]

/-- C9: for every symbol and every cache/source state, `get_token_price`
returns exactly the entry that `get_multiple_token_prices` applied to the
singleton batch of that symbol contains for it, and is absent exactly when
that mapping has no entry for it. -/
theorem resolver_refinement (env : Env) (cache : PriceCache) (symbol : String) :
    (get_token_price env cache symbol).1 =
      (get_multiple_token_prices env cache [symbol]).1 (pyUpper symbol) := by
  rw [get_token_price_char]
  have hH1 : ∀ s ∈ [symbol], ∀ t ∈ [symbol],
      get_coingecko_mapping env (pyUpper s) = get_coingecko_mapping env (pyUpper t) →
      get_coingecko_mapping env (pyUpper s) = none ∨ pyUpper s = pyUpper t := by
    intro s hs t ht _
    right
    rw [List.mem_singleton] at hs ht
    rw [hs, ht]
  rw [get_multiple_char env cache [symbol] (pyUpper symbol) hH1]
  have hany : ([symbol].any fun s => pyUpper s == pyUpper symbol) = true := by simp
  rw [hany]
  simp

/-- C2 counterexample: in `env_cg` only the CoinGecko id `binancecoin` has a
price, and the hard-coded mapping sends both WBNB and BNB to it.  WBNB is
resolvable from the sources — the singleton batch returns its price — yet
`resolveMany` on the batch containing WBNB and BNB returns no entry for WBNB
(the later `symbol_to_id` write for BNB wins), so the result mapping does not
contain exactly the symbols resolvable from the cache or the two sources, and
one symbol's presence prevents another's resolution. -/
theorem resolver_batch_counterexample :
    (get_multiple_token_prices env_cg emptyC ["WBNB"]).1 "WBNB" = some 300 ∧
    (get_multiple_token_prices env_cg emptyC ["WBNB", "BNB"]).1 "WBNB" = none ∧
    (get_multiple_token_prices env_cg emptyC ["WBNB", "BNB"]).1 "BNB" = some 300 := by
  refine ⟨?_, ?_, ?_⟩ <;> with_unfolding_all decide

/-- C2 (amended): provided no two requested symbols with distinct normalised
names share a CoinGecko id (the counterexample shows the claim fails
otherwise), the batch result maps each requested symbol's normalised name to
exactly its per-symbol resolution — cache, then DexScreener, then CoinGecko,
absent when all three miss, never a placeholder — independently of the other
symbols in the batch, and contains no other keys; the embedding is total, so
no exception is raised. -/
theorem resolver_exactness (env : Env) (cache : PriceCache) (symbols : List String)
    (hH : ∀ s ∈ symbols, ∀ t ∈ symbols,
      get_coingecko_mapping env (pyUpper s) = get_coingecko_mapping env (pyUpper t) →
      get_coingecko_mapping env (pyUpper s) = none ∨ pyUpper s = pyUpper t) :
    (∀ s ∈ symbols, (get_multiple_token_prices env cache symbols).1 (pyUpper s) =
      resolve_one_spec env cache (pyUpper s)) ∧
    (∀ k, (∀ s ∈ symbols, pyUpper s ≠ k) →
      (get_multiple_token_prices env cache symbols).1 k = none) := by
  constructor
  · intro s hs
    rw [get_multiple_char env cache symbols (pyUpper s) hH]
    have hany : (symbols.any fun t => pyUpper t == pyUpper s) = true :=
      List.any_eq_true.mpr ⟨s, hs, by simp⟩
    rw [hany]
    simp
  · intro k hk
    rw [get_multiple_char env cache symbols k hH]
    have hany : (symbols.any fun s => pyUpper s == k) = false := by
      by_contra hne
      rw [Bool.not_eq_false, List.any_eq_true] at hne
      obtain ⟨s, hs, hsk⟩ := hne
      rw [beq_iff_eq] at hsk
      exact hk s hs hsk
    rw [hany]
    simp

theorem resolver_exactness_witness :
    (get_multiple_token_prices env_c1w emptyC ["mch", "WBNB"]).1 (pyUpper "mch") =
      resolve_one_spec env_c1w emptyC (pyUpper "mch") ∧
    (get_multiple_token_prices env_c1w emptyC ["mch", "WBNB"]).1 "USDT" = none :=
  ⟨(resolver_exactness env_c1w emptyC ["mch", "WBNB"] (by decide)).1 "mch" (by decide),
   (resolver_exactness env_c1w emptyC ["mch", "WBNB"] (by decide)).2 "USDT" (by decide)⟩
